import Mathlib

/-!
Shallow embedding of the firepony BQSR sources:
  src/bqsr/string_database.h
  src/bqsr/quantizer.h
  src/bqsr/variants.h
  src/device/firepony_context.h
  src/device/covariates/packer_quality_score.h

Machine integers are modelled as `Nat` with explicit reduction modulo
`2 ^ w` where the C++ type would wrap; doubles that are only copied, never
computed with, are carried as `Rat`.
-/

/-! ## Covariate packer: the RecalTable1 chain (packer_quality_score.h)

The chain typedef in src/device/covariates/packer_quality_score.h is
`covariate_ReadGroup< covariate_QualityScore< covariate_EventTracker > >`,
and the `CovariateID` enum assigns chain indices ReadGroup = 3,
QualityScore = 2, EventTracker = 1 (the index counts from the tail of the
chain).  The bit-packer headers themselves (bit_packers/read_group.h,
quality_score.h, event_tracker.h) are not under src/. -/

/-- The covariate identifiers of the RecalTable1 chain, from the
`CovariateID` enum of `covariate_packer_quality_score`. -/
inductive CovariateID where
  | ReadGroup
  | QualityScore
  | EventTracker
deriving DecidableEq, Repr

/-- The numeric value each enumerator carries in the C++ `CovariateID`
enum (the position of the covariate in the chain, counted from the
tail). -/
def CovariateID.index : CovariateID → Nat
  | .ReadGroup => 3
  | .QualityScore => 2
  | .EventTracker => 1

/-- Modelled from the spec: the bit-packer headers are not under src/.
Per the data model, the EventType field is 2 bits wide. -/
def event_tracker_bits : Nat := 2

/-- Modelled from the spec: QualityScore is 6 bits wide (values 0-63). -/
def quality_score_bits : Nat := 6

/-- Modelled from the spec: ReadGroupId is sized to accommodate at least
256 read groups, i.e. 8 bits. -/
def read_group_bits : Nat := 8

/-- Modelled from the spec: packing iterates the chain LSB-first, so the
tail covariate (EventTracker, chain index 1) sits at bit offset 0,
QualityScore (chain index 2) above it, and ReadGroup (chain index 3) in
the most significant field.  Each field descriptor masks its encoder
output to its declared bit-width. -/
def chain_encode (rg qual ev : Nat) : Nat :=
  ev % 2 ^ event_tracker_bits
    + qual % 2 ^ quality_score_bits * 2 ^ event_tracker_bits
    + rg % 2 ^ read_group_bits * 2 ^ (event_tracker_bits + quality_score_bits)

/-- Modelled from the spec: decoding consults the descriptor of the field
designated by the `CovariateID` and extracts its bit range
(`covariate_packer_quality_score::decode` delegates to `chain::decode`,
whose definition is not under src/). -/
def chain_decode (key : Nat) : CovariateID → Nat
  | .EventTracker => key % 2 ^ event_tracker_bits
  | .QualityScore => key / 2 ^ event_tracker_bits % 2 ^ quality_score_bits
  | .ReadGroup =>
      key / 2 ^ (event_tracker_bits + quality_score_bits) % 2 ^ read_group_bits

/-- `covariate_packer_quality_score::decode(key, id)`: extract a given
covariate value from a key (delegates to the chain). -/
def covariate_packer_quality_score_decode (key : Nat) (id : CovariateID) : Nat :=
  chain_decode key id

/-- The three decoded fields of a RecalTable1 key, most significant
first. -/
def decode_triple (key : Nat) : Nat × Nat × Nat :=
  (covariate_packer_quality_score_decode key .ReadGroup,
   covariate_packer_quality_score_decode key .QualityScore,
   covariate_packer_quality_score_decode key .EventTracker)

/-- Lexicographic order on decoded field triples: ReadGroup id first,
then QualityScore numerically, then EventType. -/
def triple_lex (t u : Nat × Nat × Nat) : Prop :=
  t.1 < u.1 ∨ (t.1 = u.1 ∧ (t.2.1 < u.2.1 ∨ (t.2.1 = u.2.1 ∧ t.2.2 < u.2.2)))

instance (t u : Nat × Nat × Nat) : Decidable (triple_lex t u) := by
  unfold triple_lex; infer_instance

/-! ## String database (string_database.h)

src/bqsr/string_database.h declares the struct (a `std::vector` of stored
strings plus a hash-to-id `std::map`) and documents the operations; the
bodies of `insert`, the two `lookup` overloads and `hash` are not under
src/. -/

/-- `uint32(-1)`, the documented not-found result of
`string_database::lookup`. -/
def STRING_NOT_FOUND : Nat := 4294967295

/-- The `string_database` struct: an append-only vector of stored strings
(`string_identifiers`, the id of a string is its index) and a map from
string hash to id (`string_hash_to_id`, modelled as an association
list). -/
structure string_database where
  string_identifiers : List String
  string_hash_to_id : List (Nat × Nat)
deriving DecidableEq, Repr

/-- Index of the first stored string equal to `s`.  Modelled from the
spec: the lookup bodies are not under src/; per the spec, hash collisions
are resolved by a linear probe through the stored strings comparing the
full string, so the observable result of a lookup is the id of the unique
stored string equal to `s` (the hash map is only an accelerator). -/
def find_string_id (s : String) : List String → Option Nat
  | [] => none
  | t :: rest => if t = s then some 0 else (find_string_id s rest).map (· + 1)

/-- `string_database::lookup(const std::string&)`: returns the id of the
string if it exists in the database, otherwise returns `uint32(-1)`.
Modelled from the spec (body not under src/). -/
def string_database.lookup (db : string_database) (s : String) : Nat :=
  match find_string_id s db.string_identifiers with
  | some i => i
  | none => STRING_NOT_FOUND

/-- `string_database::lookup(uint32)`: returns the string corresponding
to the given integer id.  Modelled from the spec (body not under src/);
the C++ returns a reference into the vector, so an out-of-range id is
modelled as `none`. -/
def string_database.lookup_name (db : string_database) (id : Nat) : Option String :=
  db.string_identifiers.get? id

/-- `string_database::insert`: inserts a string into the database,
returning the new ID; if the string already exists, returns the existing
ID.  Modelled from the spec (body not under src/): a fresh string is
appended (its id is the previous size) and its hash is recorded in the
hash-to-id map; `hashF` stands for the `string_database::hash` function,
whose body is likewise not under src/. -/
def string_database.insert (hashF : String → Nat) (db : string_database)
    (s : String) : Nat × string_database :=
  match find_string_id s db.string_identifiers with
  | some i => (i, db)
  | none =>
      (db.string_identifiers.length,
       { string_identifiers := db.string_identifiers ++ [s],
         string_hash_to_id :=
           (hashF s, db.string_identifiers.length) :: db.string_hash_to_id })

/-! ## Covariate accumulator entry (quantizer.h) -/

/-- `uint32` store semantics: a value written into a `uint32` field is
reduced modulo `2 ^ 32`. -/
def uint32_trunc (n : Nat) : Nat := n % 4294967296

/-- `uint16` store semantics. -/
def uint16_trunc (n : Nat) : Nat := n % 65536

/-- `uint64` store semantics. -/
def uint64_trunc (n : Nat) : Nat := n % 18446744073709551616

/-- The `covariate_empirical_value` struct of src/bqsr/quantizer.h:
`uint32 observations` and four doubles (`mismatches`, `expected_errors`,
`estimated_quality`, `empirical_quality`).  The doubles are only copied
by the code under src/, so they are carried as `Rat`. -/
structure covariate_empirical_value where
  observations : Nat
  mismatches : Rat
  expected_errors : Rat
  estimated_quality : Rat
  empirical_quality : Rat
deriving DecidableEq, Repr

/-- Storing a count into the `uint32 observations` field of
`covariate_empirical_value` reduces it modulo `2 ^ 32`. -/
def covariate_empirical_value.set_observations
    (v : covariate_empirical_value) (n : Nat) : covariate_empirical_value :=
  { v with observations := uint32_trunc n }

/-! ## RecalTable1 emission (packer_quality_score.h) -/

/-- `cigar_event::ascii`.  Modelled from the spec: the cigar event header
is not under src/; the event codes Match, Insertion, Deletion, SoftClip
serialize as the characters M, I, D, S. -/
def cigar_event_ascii (ev : Nat) : Char :=
  if ev = 0 then 'M'
  else if ev = 1 then 'I'
  else if ev = 2 then 'D'
  else 'S'

/-- One emitted row of RecalTable1, in the order the columns are written
by `dump_table_loop`: read-group name, quality as a decimal string, event
character, empirical quality, observations, mismatches. -/
structure recal_table1_row where
  rg_name : String
  qual_str : String
  event : Char
  empirical_quality : Rat
  observations : Nat
  mismatches : Rat
deriving DecidableEq, Repr

/-- Build the row `dump_table_loop` emits for one table entry: decode the
ReadGroup id and resolve its name through the read-groups string
database, print the QualityScore with `%d`, serialize the EventTracker
value, and copy the empirical value's columns. -/
def make_row (db : string_database) (key : Nat)
    (val : covariate_empirical_value) : recal_table1_row :=
  { rg_name :=
      (db.lookup_name (covariate_packer_quality_score_decode key .ReadGroup)).getD "",
    qual_str := toString (covariate_packer_quality_score_decode key .QualityScore),
    event := cigar_event_ascii (covariate_packer_quality_score_decode key .EventTracker),
    empirical_quality := val.empirical_quality,
    observations := val.observations,
    mismatches := val.mismatches }

/-- `covariate_packer_quality_score::dump_table_loop`: iterate the table
entries in order; an entry whose `observations` is zero is skipped (null
entry), any other entry emits exactly one row.  The host table's parallel
`keys`/`values` arrays are modelled as a list of pairs. -/
def dump_table_loop (db : string_database)
    : List (Nat × covariate_empirical_value) → List recal_table1_row
  | [] => []
  | (key, val) :: rest =>
      if val.observations = 0 then dump_table_loop db rest
      else make_row db key val :: dump_table_loop db rest

/-- The column formats `table_formatter` supports that `dump_table`
uses.  Modelled from the spec: table_formatter.h is not under src/; the
enumerators are those named by `dump_table`. -/
inductive table_format where
  | FMT_STRING
  | FMT_CHAR
  | FMT_FLOAT_4
  | FMT_UINT64
  | FMT_FLOAT_2
deriving DecidableEq, Repr

/-- The column layout `covariate_packer_quality_score::dump_table`
declares for RecalTable1, in `add_column` order. -/
def dump_table_columns : List (String × table_format) :=
  [("ReadGroup", table_format.FMT_STRING),
   ("QualityScore", table_format.FMT_STRING),
   ("EventType", table_format.FMT_CHAR),
   ("EmpiricalQuality", table_format.FMT_FLOAT_4),
   ("Observations", table_format.FMT_UINT64),
   ("Errors", table_format.FMT_FLOAT_2)]

/-! ## Pipeline statistics (firepony_context.h) -/

/-- A stage timing series.  Modelled from the spec:
device/primitives/timer.h is not under src/; a `time_series` is a
measurement merged by pointwise addition. -/
structure time_series where
  elapsed : Rat
deriving DecidableEq, Repr

/-- Pointwise addition of two time series (`time_series::operator+=`). -/
def time_series.add (a b : time_series) : time_series :=
  { elapsed := a.elapsed + b.elapsed }

/-- The `pipeline_statistics` struct: four `uint64` counters and the
per-stage time series, exactly the fields of firepony_context.h. -/
structure pipeline_statistics where
  total_reads : Nat
  filtered_reads : Nat
  baq_reads : Nat
  num_batches : Nat
  io : time_series
  read_filter : time_series
  snp_filter : time_series
  bp_filter : time_series
  cigar_expansion : time_series
  baq : time_series
  fractional_error : time_series
  covariates : time_series
  baq_setup : time_series
  baq_hmm : time_series
  baq_postprocess : time_series
  covariates_gather : time_series
  covariates_filter : time_series
  covariates_sort : time_series
  covariates_pack : time_series
  postprocessing : time_series
  output : time_series
deriving DecidableEq, Repr

/-- `pipeline_statistics::operator+=`: add the other operand's counters
into the four `uint64` counters (wrapping modulo `2 ^ 64`) and merge each
time series pointwise; no other state exists in the struct. -/
def pipeline_statistics.merge (a b : pipeline_statistics) : pipeline_statistics :=
  { total_reads := uint64_trunc (a.total_reads + b.total_reads),
    filtered_reads := uint64_trunc (a.filtered_reads + b.filtered_reads),
    baq_reads := uint64_trunc (a.baq_reads + b.baq_reads),
    num_batches := uint64_trunc (a.num_batches + b.num_batches),
    io := a.io.add b.io,
    read_filter := a.read_filter.add b.read_filter,
    snp_filter := a.snp_filter.add b.snp_filter,
    bp_filter := a.bp_filter.add b.bp_filter,
    cigar_expansion := a.cigar_expansion.add b.cigar_expansion,
    baq := a.baq.add b.baq,
    fractional_error := a.fractional_error.add b.fractional_error,
    covariates := a.covariates.add b.covariates,
    baq_setup := a.baq_setup.add b.baq_setup,
    baq_hmm := a.baq_hmm.add b.baq_hmm,
    baq_postprocess := a.baq_postprocess.add b.baq_postprocess,
    covariates_gather := a.covariates_gather.add b.covariates_gather,
    covariates_filter := a.covariates_filter.add b.covariates_filter,
    covariates_sort := a.covariates_sort.add b.covariates_sort,
    covariates_pack := a.covariates_pack.add b.covariates_pack,
    postprocessing := a.postprocessing.add b.postprocessing,
    output := a.output.add b.output }

/-! ## Known-SNP masking and covariate gathering (variants.h)

src/bqsr/variants.h declares `filter_known_snps` and the SNP database
(global-coordinate `genome_start_positions` / `genome_stop_positions`);
the kernel bodies and the covariate-gather code are not under src/. -/

/-- One known-variant interval of the SNP database, in global
coordinates: a `genome_start_positions` / `genome_stop_positions`
pair. -/
structure snp_interval where
  genome_start : Nat
  genome_stop : Nat
deriving DecidableEq, Repr

/-- Whether some known-variant interval of the database covers global
position `p`.  Modelled from the spec: the search walks intervals with
start ≤ p and end > p. -/
def snp_covers (snpdb : List snp_interval) (p : Nat) : Bool :=
  snpdb.any fun iv => iv.genome_start ≤ p && p < iv.genome_stop

/-- One base site of a batch as the covariate pipeline sees it: its
global reference coordinate, its packed covariate key, its cigar event
code (0 = Match, 1 = Insertion, 2 = Deletion, 3 = SoftClip), its
active-location flag and its fractional error mass. -/
structure base_site where
  pos : Nat
  key : Nat
  event : Nat
  active : Bool
  frac_err : Rat
deriving DecidableEq, Repr

/-- `filter_known_snps`.  Modelled from the spec: for each base of each
active read at global coordinate `p`, clear the active-location flag when
a known-variant interval covers `p`. -/
def filter_known_snps (snpdb : List snp_interval) (batch : List base_site)
    : List base_site :=
  batch.map fun b =>
    { b with active := b.active && !snp_covers snpdb b.pos }

/-- The covariate gather stage.  Modelled from the spec: for each active
base not masked by the SNP filter whose event is Match or Insertion, emit
one (key, 1 observation, fractional-error mismatch) record. -/
def gather_covariate_records (batch : List base_site) : List (Nat × Nat × Rat) :=
  (batch.filter fun b => b.active && (b.event == 0 || b.event == 1)).map
    fun b => (b.key, 1, b.frac_err)

/-- Add one record into a (key-sorted) accumulator table, summing
observations and mismatches on key equality.  Modelled from the spec:
the per-batch table is the sort/reduce-by-key of the gathered records. -/
def table_insert_record (tbl : List (Nat × Nat × Rat)) (rec : Nat × Nat × Rat)
    : List (Nat × Nat × Rat) :=
  match tbl with
  | [] => [rec]
  | (k, obs, mis) :: rest =>
      if rec.1 < k then rec :: (k, obs, mis) :: rest
      else if rec.1 = k then (k, obs + rec.2.1, mis + rec.2.2) :: rest
      else (k, obs, mis) :: table_insert_record rest rec

/-- The per-batch covariate table built from a batch after SNP masking:
gather the records of the unmasked active bases and reduce them by key.
Modelled from the spec (the gather and sort/reduce kernels are not under
src/). -/
def per_batch_covariate_table (snpdb : List snp_interval)
    (batch : List base_site) : List (Nat × Nat × Rat) :=
  (gather_covariate_records (filter_known_snps snpdb batch)).foldl
    table_insert_record []

/-! ## Alignment windows (firepony_context.h)

`alignment_windows` is a vector of `uint32` pairs (global reference
coordinates); `sequence_alignment_windows` is a vector of `uint16` pairs
(local per-sequence coordinates). -/

/-- Storing a window into `sequence_alignment_windows`
(`d_vector_u16_2`): each endpoint is stored as a `uint16`. -/
def store_sequence_alignment_window (lo hi : Nat) : Nat × Nat :=
  (uint16_trunc lo, uint16_trunc hi)

/-- Storing a window into `alignment_windows` (`d_vector_u32_2`): each
endpoint is stored as a `uint32`. -/
def store_alignment_window (lo hi : Nat) : Nat × Nat :=
  (uint32_trunc lo, uint32_trunc hi)

/-! ## Helper lemmas -/

lemma find_string_id_none_iff (s : String) (l : List String) :
    find_string_id s l = none ↔ s ∉ l := by
  induction l with
  | nil => simp [find_string_id]
  | cons t rest ih =>
    by_cases h : t = s
    · subst h; simp [find_string_id]
    · have hst : ¬s = t := fun e => h e.symm
      simp [find_string_id, h, hst, Option.map_eq_none', ih]

lemma find_string_id_get (s : String) (l : List String) (i : Nat)
    (h : find_string_id s l = some i) : l.get? i = some s := by
  induction l generalizing i with
  | nil => simp [find_string_id] at h
  | cons t rest ih =>
    by_cases ht : t = s
    · subst ht
      simp [find_string_id] at h
      simp [← h]
    · simp [find_string_id, ht] at h
      obtain ⟨j, hj, rfl⟩ := h
      simpa using ih j hj

lemma find_string_id_lt_length (s : String) (l : List String) (i : Nat)
    (h : find_string_id s l = some i) : i < l.length := by
  have := find_string_id_get s l i h
  exact (List.get?_eq_some.mp this).1

lemma find_string_id_append (s : String) (l l' : List String) (i : Nat)
    (h : find_string_id s l = some i) :
    find_string_id s (l ++ l') = some i := by
  induction l generalizing i with
  | nil => simp [find_string_id] at h
  | cons t rest ih =>
    by_cases ht : t = s
    · subst ht
      simp [find_string_id] at h ⊢
      exact h
    · simp [find_string_id, ht] at h ⊢
      obtain ⟨j, hj, rfl⟩ := h
      exact ⟨j, ih j hj, rfl⟩

lemma find_string_id_append_self (s : String) (l : List String) (h : s ∉ l) :
    find_string_id s (l ++ [s]) = some l.length := by
  induction l with
  | nil => simp [find_string_id]
  | cons t rest ih =>
    have ht : t ≠ s := fun e => h (e ▸ List.mem_cons_self t rest)
    have hr : s ∉ rest := fun e => h (List.mem_cons_of_mem t e)
    simp [find_string_id, ht, ih hr]

lemma insert_name (hashF : String → Nat) (db : string_database) (s : String) :
    (db.insert hashF s).2.lookup_name (db.insert hashF s).1 = some s := by
  unfold string_database.insert
  cases h : find_string_id s db.string_identifiers with
  | some i => simpa [string_database.lookup_name] using find_string_id_get s _ i h
  | none =>
      simp [string_database.lookup_name, List.get?_concat_length]

lemma insert_idem (hashF : String → Nat) (db : string_database) (s : String) :
    (db.insert hashF s).2.insert hashF s = db.insert hashF s := by
  unfold string_database.insert
  cases h : find_string_id s db.string_identifiers with
  | some i => simp [string_database.insert, h]
  | none =>
      have hmem : s ∉ db.string_identifiers := (find_string_id_none_iff s _).mp h
      simp [string_database.insert, find_string_id_append_self s _ hmem]

/-! ## Claim theorems -/

/-- C1: for every valid field tuple of the quality-score chain
(ReadGroup, QualityScore, EventTracker), each field value within its
declared bit-width, decoding any field of the packed composite key
recovers exactly the value that was encoded, for each `CovariateID`. -/
theorem packer_quality_score_roundtrip (rg qual ev : Nat)
    (hrg : rg < 2 ^ read_group_bits) (hqual : qual < 2 ^ quality_score_bits)
    (hev : ev < 2 ^ event_tracker_bits) :
    covariate_packer_quality_score_decode (chain_encode rg qual ev) .ReadGroup = rg
    ∧ covariate_packer_quality_score_decode (chain_encode rg qual ev) .QualityScore = qual
    ∧ covariate_packer_quality_score_decode (chain_encode rg qual ev) .EventTracker = ev := by
  simp only [covariate_packer_quality_score_decode, chain_decode, chain_encode,
    event_tracker_bits, quality_score_bits, read_group_bits] at *
  norm_num at *
  refine ⟨?_, ?_, ?_⟩ <;> omega

theorem packer_quality_score_roundtrip_witness :
    covariate_packer_quality_score_decode (chain_encode 5 30 1) .ReadGroup = 5
    ∧ covariate_packer_quality_score_decode (chain_encode 5 30 1) .QualityScore = 30
    ∧ covariate_packer_quality_score_decode (chain_encode 5 30 1) .EventTracker = 1 :=
  packer_quality_score_roundtrip 5 30 1 (by decide) (by decide) (by decide)

/-- C2: for every string `s`, looking up the name of the id returned by
`insert(s)` yields `s` again, and `insert` is idempotent: a second insert
of a string already in the database returns the same id as the first and
leaves the database unchanged. -/
theorem string_database_roundtrip (hashF : String → Nat)
    (db : string_database) (s : String) :
    (db.insert hashF s).2.lookup_name (db.insert hashF s).1 = some s
    ∧ (db.insert hashF s).2.insert hashF s = db.insert hashF s :=
  ⟨insert_name hashF db s, insert_idem hashF db s⟩

/-- C3: `insert` is injective on distinct strings: inserting `s1` and
then a distinct `s2` returns distinct ids, even when the string hashes
collide (`hashF s1 = hashF s2`), because collisions are resolved by
comparing the full stored strings. -/
theorem string_database_insert_injective (hashF : String → Nat)
    (db : string_database) (s1 s2 : String) (hne : s1 ≠ s2)
    (hcol : hashF s1 = hashF s2) :
    ((db.insert hashF s1).2.insert hashF s2).1 ≠ (db.insert hashF s1).1 := by
  have h1 : (db.insert hashF s1).2.lookup_name (db.insert hashF s1).1 = some s1 :=
    insert_name hashF db s1
  set db1 := (db.insert hashF s1).2 with hdb1
  set id1 := (db.insert hashF s1).1 with hid1
  unfold string_database.insert
  cases h : find_string_id s2 db1.string_identifiers with
  | some j =>
      simp only
      intro hj
      have h2 : db1.string_identifiers.get? j = some s2 := find_string_id_get s2 _ j h
      rw [hj] at h2
      rw [string_database.lookup_name] at h1
      rw [h1] at h2
      exact hne (Option.some.inj h2)
  | none =>
      simp only
      have hlt : id1 < db1.string_identifiers.length := by
        rw [string_database.lookup_name] at h1
        exact (List.get?_eq_some.mp h1).1
      omega

theorem string_database_insert_injective_witness :
    ((string_database.insert (fun _ => 0)
        ((string_database.insert (fun _ => 0) ⟨[], []⟩ "rg1").2) "rg2").1
      ≠ (string_database.insert (fun _ => 0) ⟨[], []⟩ "rg1").1) :=
  string_database_insert_injective (fun _ => 0) ⟨[], []⟩ "rg1" "rg2"
    (by decide) rfl

/-- C4: looking up a string never inserted returns the distinguished
not-found value `uint32(-1)`; looking up a string right after inserting
it returns the id the insertion assigned, which is never the not-found
value; and an id once assigned is stable under later insertions (so
lookup of a previously inserted string keeps returning its id).  The
size hypothesis reflects the `uint32` id space of the C++ interface. -/
theorem string_database_lookup_spec (hashF : String → Nat)
    (db : string_database) (s t : String)
    (hsize : db.string_identifiers.length < STRING_NOT_FOUND) :
    (s ∉ db.string_identifiers → db.lookup s = STRING_NOT_FOUND)
    ∧ ((db.insert hashF s).2.lookup s = (db.insert hashF s).1
       ∧ (db.insert hashF s).1 ≠ STRING_NOT_FOUND)
    ∧ (db.lookup s ≠ STRING_NOT_FOUND →
        (db.insert hashF t).2.lookup s = db.lookup s) := by
  refine ⟨?_, ⟨?_, ?_⟩, ?_⟩
  · intro hmem
    have := (find_string_id_none_iff s db.string_identifiers).mpr hmem
    simp [string_database.lookup, this]
  · unfold string_database.insert string_database.lookup
    cases h : find_string_id s db.string_identifiers with
    | some i => simp [h]
    | none =>
        have hmem : s ∉ db.string_identifiers := (find_string_id_none_iff s _).mp h
        simp [find_string_id_append_self s _ hmem]
  · unfold string_database.insert
    cases h : find_string_id s db.string_identifiers with
    | some i =>
        have := find_string_id_lt_length s _ i h
        simp only
        omega
    | none =>
        simp
        omega
  · intro hfound
    unfold string_database.lookup at hfound ⊢
    cases h : find_string_id s db.string_identifiers with
    | none => simp [h] at hfound
    | some i =>
        unfold string_database.insert
        cases h' : find_string_id t db.string_identifiers with
        | some j => simp [h, h']
        | none => simp [h, h', find_string_id_append s _ [t] i h]

theorem string_database_lookup_spec_witness :
    ("rg1" ∉ (⟨[], []⟩ : string_database).string_identifiers →
      (⟨[], []⟩ : string_database).lookup "rg1" = STRING_NOT_FOUND)
    ∧ (((⟨[], []⟩ : string_database).insert (fun _ => 7) "rg1").2.lookup "rg1"
          = ((⟨[], []⟩ : string_database).insert (fun _ => 7) "rg1").1
       ∧ ((⟨[], []⟩ : string_database).insert (fun _ => 7) "rg1").1 ≠ STRING_NOT_FOUND)
    ∧ ((⟨[], []⟩ : string_database).lookup "rg1" ≠ STRING_NOT_FOUND →
        ((⟨[], []⟩ : string_database).insert (fun _ => 7) "rg2").2.lookup "rg1"
          = (⟨[], []⟩ : string_database).lookup "rg1") :=
  string_database_lookup_spec (fun _ => 7) ⟨[], []⟩ "rg1" "rg2" (by decide)

lemma dump_table_loop_eq_filter_map (db : string_database)
    (table : List (Nat × covariate_empirical_value)) :
    dump_table_loop db table
      = (table.filter fun e => e.2.observations ≠ 0).map
          fun e => make_row db e.1 e.2 := by
  induction table with
  | nil => simp [dump_table_loop]
  | cons e rest ih =>
    obtain ⟨k, v⟩ := e
    by_cases h : v.observations = 0
    · simp [dump_table_loop, h, ih]
    · simp [dump_table_loop, h, ih]

lemma key_lt_iff_triple_lex (k1 k2 : Nat) (h1 : k1 < 65536) (h2 : k2 < 65536) :
    k1 < k2 ↔ triple_lex (decode_triple k1) (decode_triple k2) := by
  simp only [decode_triple, covariate_packer_quality_score_decode, chain_decode,
    triple_lex, event_tracker_bits, quality_score_bits, read_group_bits]
  norm_num
  omega

/-- C5: when emitting RecalTable1, every table entry whose observations
count is zero produces no output row and every entry with a nonzero
count produces exactly one row: the emitted row list is exactly the image
of the non-null-observation entries of the table, in table order. -/
theorem dump_table_loop_skips_null_entries (db : string_database)
    (table : List (Nat × covariate_empirical_value)) :
    dump_table_loop db table
      = (table.filter fun e => e.2.observations ≠ 0).map
          fun e => make_row db e.1 e.2 :=
  dump_table_loop_eq_filter_map db table

/-- C6: for a covariate table whose composite keys are strictly
ascending, the rows `dump_table_loop` emits are sorted lexicographically
by (ReadGroup id, QualityScore, EventType): the decoded field triples of
the emitted entries are pairwise in `triple_lex` order, because the
packed bit layout of the chain makes numeric key order coincide with the
lexicographic field order. -/
theorem dump_table_rows_sorted (db : string_database)
    (table : List (Nat × covariate_empirical_value))
    (hsorted : (table.map Prod.fst).Pairwise (· < ·))
    (hbound : ∀ e ∈ table, e.1 < 65536) :
    ((table.filter fun e => e.2.observations ≠ 0).map
        fun e => decode_triple e.1).Pairwise triple_lex
    ∧ dump_table_loop db table
        = (table.filter fun e => e.2.observations ≠ 0).map
            fun e => make_row db e.1 e.2 := by
  constructor
  · have hp : table.Pairwise (fun e1 e2 => e1.1 < e2.1) :=
      List.pairwise_map.mp hsorted
    have hf : (table.filter fun e => e.2.observations ≠ 0).Pairwise
        (fun e1 e2 => e1.1 < e2.1) :=
      hp.sublist (List.filter_sublist table)
    have hfb : ∀ e ∈ (table.filter fun e => e.2.observations ≠ 0), e.1 < 65536 :=
      fun e he => hbound e (List.mem_of_mem_filter he)
    have hlex : (table.filter fun e => e.2.observations ≠ 0).Pairwise
        (fun e1 e2 => triple_lex (decode_triple e1.1) (decode_triple e2.1)) := by
      refine List.Pairwise.imp_of_mem ?_ hf
      intro e1 e2 he1 he2 hlt
      exact (key_lt_iff_triple_lex e1.1 e2.1 (hfb e1 he1) (hfb e2 he2)).mp hlt
    exact List.pairwise_map.mpr hlex
  · exact dump_table_loop_eq_filter_map db table

theorem dump_table_rows_sorted_witness :
    (([((4:Nat), (⟨1, 0, 0, 0, 0⟩ : covariate_empirical_value)),
       (260, ⟨2, 0, 0, 0, 0⟩)].filter fun e => e.2.observations ≠ 0).map
        fun e => decode_triple e.1).Pairwise triple_lex
    ∧ dump_table_loop ⟨[], []⟩
        [((4:Nat), (⟨1, 0, 0, 0, 0⟩ : covariate_empirical_value)),
         (260, ⟨2, 0, 0, 0, 0⟩)]
        = (([((4:Nat), (⟨1, 0, 0, 0, 0⟩ : covariate_empirical_value)),
            (260, ⟨2, 0, 0, 0, 0⟩)].filter fun e => e.2.observations ≠ 0).map
            fun e => make_row ⟨[], []⟩ e.1 e.2) :=
  dump_table_rows_sorted ⟨[], []⟩
    [((4:Nat), (⟨1, 0, 0, 0, 0⟩ : covariate_empirical_value)),
     (260, ⟨2, 0, 0, 0, 0⟩)]
    (by simp) (by simp)

/-- C7 counterexample: the accumulator entry of src/bqsr/quantizer.h
declares `observations` as `uint32`, so the count `2 ^ 64 - 1` is not
represented exactly: storing it truncates to `2 ^ 32 - 1`. -/
theorem observations_u64_counterexample :
    (covariate_empirical_value.set_observations ⟨0, 0, 0, 0, 0⟩
        (2 ^ 64 - 1)).observations ≠ 2 ^ 64 - 1
    ∧ (covariate_empirical_value.set_observations ⟨0, 0, 0, 0, 0⟩
        (2 ^ 64 - 1)).observations = 2 ^ 32 - 1 := by
  constructor
  · decide
  · decide

/-- C7 (amended): the accumulator entry stores `observations` as an
unsigned 32-bit integer, so counts up to `2 ^ 32 - 1` are represented
exactly and larger counts truncate modulo `2 ^ 32`; the Observations
column of RecalTable1 is emitted with the 64-bit unsigned integer
format. -/
theorem observations_u32_exact (v : covariate_empirical_value) (n : Nat)
    (h : n < 2 ^ 32) :
    (v.set_observations n).observations = n
    ∧ (v.set_observations (n + 2 ^ 32)).observations = n
    ∧ dump_table_columns.get? 4 = some ("Observations", table_format.FMT_UINT64) := by
  refine ⟨?_, ?_, rfl⟩
  · simp only [covariate_empirical_value.set_observations, uint32_trunc]
    omega
  · simp only [covariate_empirical_value.set_observations, uint32_trunc]
    omega

theorem observations_u32_exact_witness :
    ((⟨0, 0, 0, 0, 0⟩ : covariate_empirical_value).set_observations 7).observations = 7
    ∧ ((⟨0, 0, 0, 0, 0⟩ : covariate_empirical_value).set_observations
        (7 + 2 ^ 32)).observations = 7
    ∧ dump_table_columns.get? 4 = some ("Observations", table_format.FMT_UINT64) :=
  observations_u32_exact ⟨0, 0, 0, 0, 0⟩ 7 (by decide)

/-- C8: `pipeline_statistics::operator+=` performs pointwise addition:
each of the four `uint64` counters of the result is the (wrapping) sum of
the operands' counters, each per-stage time series is the pointwise sum
of the operands' series, and the struct has no other state; consequently
the merge is associative and commutative on the counters. -/
theorem pipeline_statistics_merge_pointwise (a b c : pipeline_statistics) :
    (a.merge b).total_reads = (a.total_reads + b.total_reads) % 2 ^ 64
    ∧ (a.merge b).filtered_reads = (a.filtered_reads + b.filtered_reads) % 2 ^ 64
    ∧ (a.merge b).baq_reads = (a.baq_reads + b.baq_reads) % 2 ^ 64
    ∧ (a.merge b).num_batches = (a.num_batches + b.num_batches) % 2 ^ 64
    ∧ (a.merge b).io = a.io.add b.io
    ∧ (a.merge b).read_filter = a.read_filter.add b.read_filter
    ∧ (a.merge b).snp_filter = a.snp_filter.add b.snp_filter
    ∧ (a.merge b).bp_filter = a.bp_filter.add b.bp_filter
    ∧ (a.merge b).cigar_expansion = a.cigar_expansion.add b.cigar_expansion
    ∧ (a.merge b).baq = a.baq.add b.baq
    ∧ (a.merge b).fractional_error = a.fractional_error.add b.fractional_error
    ∧ (a.merge b).covariates = a.covariates.add b.covariates
    ∧ (a.merge b).baq_setup = a.baq_setup.add b.baq_setup
    ∧ (a.merge b).baq_hmm = a.baq_hmm.add b.baq_hmm
    ∧ (a.merge b).baq_postprocess = a.baq_postprocess.add b.baq_postprocess
    ∧ (a.merge b).covariates_gather = a.covariates_gather.add b.covariates_gather
    ∧ (a.merge b).covariates_filter = a.covariates_filter.add b.covariates_filter
    ∧ (a.merge b).covariates_sort = a.covariates_sort.add b.covariates_sort
    ∧ (a.merge b).covariates_pack = a.covariates_pack.add b.covariates_pack
    ∧ (a.merge b).postprocessing = a.postprocessing.add b.postprocessing
    ∧ (a.merge b).output = a.output.add b.output
    ∧ ((a.merge b).merge c).total_reads = (a.merge (b.merge c)).total_reads
    ∧ ((a.merge b).merge c).filtered_reads = (a.merge (b.merge c)).filtered_reads
    ∧ ((a.merge b).merge c).baq_reads = (a.merge (b.merge c)).baq_reads
    ∧ ((a.merge b).merge c).num_batches = (a.merge (b.merge c)).num_batches
    ∧ (a.merge b).total_reads = (b.merge a).total_reads
    ∧ (a.merge b).filtered_reads = (b.merge a).filtered_reads
    ∧ (a.merge b).baq_reads = (b.merge a).baq_reads
    ∧ (a.merge b).num_batches = (b.merge a).num_batches := by
  repeat' apply And.intro
  all_goals simp only [pipeline_statistics.merge, uint64_trunc]
  all_goals norm_num
  all_goals omega

/-- C9: bases masked by the known-SNP filter contribute nothing to
covariate accounting: for a batch in which every base is covered by a
known-variant interval, the per-batch partial covariate table is
empty. -/
theorem masked_bases_invisible (snpdb : List snp_interval)
    (batch : List base_site)
    (h : ∀ b ∈ batch, snp_covers snpdb b.pos = true) :
    per_batch_covariate_table snpdb batch = [] := by
  have hg : gather_covariate_records (filter_known_snps snpdb batch) = [] := by
    unfold gather_covariate_records filter_known_snps
    rw [List.map_eq_nil]
    rw [List.filter_eq_nil]
    intro a ha
    obtain ⟨b, hb, rfl⟩ := List.mem_map.mp ha
    simp [h b hb]
  unfold per_batch_covariate_table
  rw [hg]
  rfl

theorem masked_bases_invisible_witness :
    per_batch_covariate_table [⟨0, 10⟩]
      [⟨5, 3, 0, true, 0⟩, ⟨6, 7, 1, true, 0⟩] = [] :=
  masked_bases_invisible [⟨0, 10⟩]
    [⟨5, 3, 0, true, 0⟩, ⟨6, 7, 1, true, 0⟩] (by decide)

/-- C10: the per-sequence (local-coordinate) alignment windows are
stored as pairs of 16-bit unsigned integers, so every stored local
endpoint is bounded by 65535 and equals the true coordinate reduced
modulo `2 ^ 16` — it round-trips exactly iff the coordinate is below
`2 ^ 16` — while the global-coordinate windows use 32-bit components. -/
theorem sequence_alignment_windows_u16 (lo hi : Nat) :
    (store_sequence_alignment_window lo hi).1 ≤ 65535
    ∧ (store_sequence_alignment_window lo hi).2 ≤ 65535
    ∧ store_sequence_alignment_window lo hi = (lo % 2 ^ 16, hi % 2 ^ 16)
    ∧ ((store_sequence_alignment_window lo hi).1 = lo ↔ lo < 2 ^ 16)
    ∧ ((store_sequence_alignment_window lo hi).2 = hi ↔ hi < 2 ^ 16)
    ∧ store_alignment_window lo hi = (lo % 2 ^ 32, hi % 2 ^ 32) := by
  refine ⟨?_, ?_, ?_, ?_, ?_, ?_⟩ <;>
    simp only [store_sequence_alignment_window, store_alignment_window,
      uint16_trunc, uint32_trunc, Prod.mk.injEq] <;>
    norm_num <;>
    omega
